import Mathlib

/-!
# Verification of the concurrent traffic-simulation core

Shallow embedding of the two core source files of the repository
(`src/TrafficLight.cpp` and `src/Intersection.cpp`): the phase message
queue, the traffic light, the waiting-vehicles admission queue and the
intersection with its occupied gate.  Stateful C++ code is embedded as
explicit state passing; the autonomous loops become step functions; code
paths that are undefined behaviour in the source (dereferencing the front
of an empty vector) return `none`.
-/

namespace TrafficSim

/-- The two phases of a traffic light (`TrafficLightPhase` enum). -/
inductive TrafficLightPhase
  | red
  | green
deriving DecidableEq, Repr

/-- Flip red to green and green to red, as the `if/else` in
`TrafficLight::cycleThroughPhases` does. -/
def togglePhase : TrafficLightPhase → TrafficLightPhase
  | .red => .green
  | .green => .red

/-! ## MessageQueue (TrafficLight.cpp, lines 16-50)

The buffer is the `_messages` vector.  `send` pushes at the back
(`push_back`); the fixed 100 ms transmission sleep and the condition
variable are timing, not state.  `receive` blocks while the buffer is
empty (modelled by `none`), and otherwise removes and returns the BACK
element (`_messages.back()` followed by `pop_back()`). -/

namespace MessageQueue

/-- `MessageQueue<T>::send`: append the message at the back of `_messages`. -/
def send {α : Type} (q : List α) (msg : α) : List α := q ++ [msg]

/-- `MessageQueue<T>::receive`: wait until the buffer is non-empty, then
remove and return the last (most recently pushed) element.  `none` models
blocking forever on an empty buffer. -/
def receive {α : Type} (q : List α) : Option (α × List α) :=
  q.getLast?.map (fun m => (m, q.dropLast))

end MessageQueue

/-! ## WaitingVehicles (Intersection.cpp, lines 26-65)

Two parallel vectors `_vehicles` and `_promises`; vehicles and promises
are identified by numeric ids.  All three member functions run under the
same mutex in the source, so each is one atomic state transformation
here. -/

/-- The `WaitingVehicles` container: the vehicle vector and the promise
vector, kept as two separate sequences exactly as in the source. -/
structure WaitingVehicles where
  vehicles : List Nat
  promises : List Nat
deriving DecidableEq, Repr

/-- The empty container (freshly constructed `WaitingVehicles`). -/
def WaitingVehicles.empty : WaitingVehicles := ⟨[], []⟩

/-- `WaitingVehicles::getSize`: the number of waiting vehicles
(`_vehicles.size()`). -/
def WaitingVehicles.getSize (w : WaitingVehicles) : Nat := w.vehicles.length

/-- `WaitingVehicles::pushBack`: append the vehicle and its promise at the
back of the two vectors. -/
def WaitingVehicles.pushBack (w : WaitingVehicles) (vehicle promise : Nat) :
    WaitingVehicles :=
  { vehicles := w.vehicles ++ [vehicle], promises := w.promises ++ [promise] }

/-- `WaitingVehicles::permitEntryToFirstInQueue`: read the begin iterators
of both vectors, fulfil the first promise, erase both front elements.
Returns the granted (vehicle, promise) pair and the new state; `none`
models the undefined behaviour of dereferencing `begin()` of an empty
vector. -/
def WaitingVehicles.permitEntryToFirstInQueue (w : WaitingVehicles) :
    Option ((Nat × Nat) × WaitingVehicles) :=
  match w.vehicles, w.promises with
  | v :: vs, p :: ps => some ((v, p), ⟨vs, ps⟩)
  | _, _ => none

/-! ### Operation sequences on the admission queue -/

/-- An operation on the `WaitingVehicles` container: a `pushBack` of a
(vehicle, promise) pair, or a `permitEntryToFirstInQueue`. -/
inductive QueueOp
  | push (vehicle promise : Nat)
  | permit
deriving DecidableEq, Repr

/-- Run a sequence of queue operations, recording every grant (in order)
in `grants`.  A `permit` on an empty queue is the undefined-behaviour
branch and yields `none`. -/
def runQueueOps (w : WaitingVehicles) (grants : List (Nat × Nat)) :
    List QueueOp → Option (WaitingVehicles × List (Nat × Nat))
  | [] => some (w, grants)
  | QueueOp.push v p :: rest => runQueueOps (w.pushBack v p) grants rest
  | QueueOp.permit :: rest =>
    match w.permitEntryToFirstInQueue with
    | some (g, w2) => runQueueOps w2 (grants ++ [g]) rest
    | none => none

/-- The (vehicle, promise) pairs enqueued by an operation sequence, in
arrival order. -/
def enqueuedOf : List QueueOp → List (Nat × Nat)
  | [] => []
  | QueueOp.push v p :: rest => (v, p) :: enqueuedOf rest
  | QueueOp.permit :: rest => enqueuedOf rest

/-- The waiting pairs of a container state: the vehicle sequence aligned
with the promise sequence. -/
def WaitingVehicles.pairs (w : WaitingVehicles) : List (Nat × Nat) :=
  w.vehicles.zip w.promises

/-! ## TrafficLight (TrafficLight.cpp, lines 54-127)

The light owns `_currentPhase` and the message queue.  The toggle loop
`cycleThroughPhases` sleeps 1 ms, measures the time elapsed since
`phase_start`, and once it reaches the drawn `phase_duration` flips the
phase, sends the new phase to the queue and draws a fresh duration.  Time
is embedded as a millisecond counter advanced by one per loop iteration;
the Mersenne-Twister engine is embedded as a stream of raw draws fed to
the uniform distribution. -/

/-- `std::uniform_int_distribution<int> uni(min, max)` applied to one raw
engine output: a value in the inclusive range `[lo, hi]`. -/
def uniformDraw (lo hi r : Nat) : Nat := lo + r % (hi - lo + 1)

/-- State of one traffic light: the phase snapshot `_currentPhase`, the
milliseconds elapsed since `phase_start`, and the drawn
`phase_duration`. -/
structure LightState where
  currentPhase : TrafficLightPhase
  timeElapsed : Nat
  phaseDuration : Nat
deriving DecidableEq, Repr

/-- The `TrafficLight` constructor (`_currentPhase = red`) followed by the
set-up of `cycleThroughPhases`: the first duration draw from raw engine
output `r0`, with `phase_start` set to now. -/
def TrafficLight.init (r0 : Nat) : LightState :=
  { currentPhase := .red, timeElapsed := 0, phaseDuration := uniformDraw 4000 6000 r0 }

/-- `TrafficLight::getCurrentPhase`: return the `_currentPhase` snapshot. -/
def TrafficLight.getCurrentPhase (s : LightState) : TrafficLightPhase :=
  s.currentPhase

/-- One iteration of the `while (true)` loop in
`TrafficLight::cycleThroughPhases`: sleep 1 ms (advance elapsed time by
one), and if the elapsed time has reached `phase_duration`, flip
`_currentPhase`, send the new phase to the queue (the emitted value), reset
`phase_start` and draw the next duration from raw engine output `r`.
Returns the new state and the message sent during this iteration, if
any. -/
def TrafficLight.cycleTick (s : LightState) (r : Nat) :
    LightState × Option TrafficLightPhase :=
  let elapsed := s.timeElapsed + 1
  if s.phaseDuration ≤ elapsed then
    let newPhase := togglePhase s.currentPhase
    ({ currentPhase := newPhase, timeElapsed := 0,
       phaseDuration := uniformDraw 4000 6000 r }, some newPhase)
  else
    ({ s with timeElapsed := elapsed }, none)

/-- `TrafficLight::waitForGreen`: loop forever, each iteration receiving
one phase from the queue and returning once the received phase equals
green.  `msgs` is the stream of values the successive `receive()` calls
deliver; the result `some n` means the call returns after exactly `n`
receives (the `n`-th value being green), and `none` means it blocks
forever. -/
def TrafficLight.waitForGreen : List TrafficLightPhase → Option Nat
  | [] => none
  | phase :: rest =>
    if phase = TrafficLightPhase.green then some 1
    else (TrafficLight.waitForGreen rest).map (· + 1)

/-! ## Intersection (Intersection.cpp, lines 71-216) -/

/-- A street incident to the intersection; the only observable the core
uses is its id (`Street::getID`). -/
structure Street where
  id : Nat
deriving DecidableEq, Repr

/-- State of one intersection: its waiting-vehicles container, its street
list, the `_isBlocked` gate, its traffic light, and the log of grants
issued so far (in order). -/
structure IntersectionState where
  waitingVehicles : WaitingVehicles
  streets : List Street
  isBlocked : Bool
  light : LightState
  grants : List (Nat × Nat)
deriving DecidableEq, Repr

/-- `Intersection::setIsBlocked`: assign the `_isBlocked` flag. -/
def Intersection.setIsBlocked (s : IntersectionState) (isBlocked : Bool) :
    IntersectionState :=
  { s with isBlocked := isBlocked }

/-- `Intersection::vehicleHasLeft`: unblock queue processing by calling
`setIsBlocked(false)`.  The departing vehicle argument is unused by the
source body. -/
def Intersection.vehicleHasLeft (s : IntersectionState) (_vehicle : Nat) :
    IntersectionState :=
  Intersection.setIsBlocked s false

/-- `Intersection::addStreet`: append a street to `_streets`. -/
def Intersection.addStreet (s : IntersectionState) (street : Street) :
    IntersectionState :=
  { s with streets := s.streets ++ [street] }

/-- The loop body of `Intersection::queryStreets`: walk `_streets` and
`push_back` every street whose id differs from the incoming street's id. -/
def Intersection.queryStreetsList (streets : List Street) (incoming : Street) :
    List Street :=
  streets.foldl
    (fun outgoings it => if incoming.id ≠ it.id then outgoings ++ [it] else outgoings)
    []

/-- `Intersection::queryStreets`: return the outgoing streets; the
intersection state is returned unchanged to make the absence of side
effects explicit. -/
def Intersection.queryStreets (s : IntersectionState) (incoming : Street) :
    List Street × IntersectionState :=
  (Intersection.queryStreetsList s.streets incoming, s)

/-- Events of the intersection's concurrent execution, each one an atomic
state transformation: the enqueue half of `addVehicleToQueue` (a vehicle
thread pushing its fresh promise), one iteration of the
`processVehicleQueue` loop, and a `vehicleHasLeft` notification. -/
inductive IntersectionOp
  | addVehicle (vehicle promise : Nat)
  | pollStep
  | departure (vehicle : Nat)
deriving DecidableEq, Repr

/-- One atomic event of the intersection.  `pollStep` is one iteration of
the `while (true)` loop of `Intersection::processVehicleQueue`: if at
least one vehicle waits (`getSize() > 0`) and the intersection is not
blocked, set `_isBlocked = true` and call `permitEntryToFirstInQueue`,
logging the grant; otherwise do nothing.  `none` is the
undefined-behaviour branch of `permitEntryToFirstInQueue`. -/
def intersectionStep (s : IntersectionState) :
    IntersectionOp → Option IntersectionState
  | .addVehicle v p =>
    some { s with waitingVehicles := s.waitingVehicles.pushBack v p }
  | .pollStep =>
    if s.waitingVehicles.getSize > 0 && !s.isBlocked then
      let s1 := Intersection.setIsBlocked s true
      match s1.waitingVehicles.permitEntryToFirstInQueue with
      | some (g, w2) =>
        some { s1 with waitingVehicles := w2, grants := s1.grants ++ [g] }
      | none => none
    else some s
  | .departure v => some (Intersection.vehicleHasLeft s v)

/-- The green gate at the end of `Intersection::addVehicleToQueue`, run
after the grant future fires: read `getCurrentPhase()`, and if it is red
call `waitForGreen()`.  The result counts the receives performed: `some 0`
is the fast path (no wait at all), `some n` with `n > 0` means
`waitForGreen` returned after `n` receives, `none` means it blocks
forever. -/
def Intersection.entryGate (phase : TrafficLightPhase)
    (msgs : List TrafficLightPhase) : Option Nat :=
  if phase = TrafficLightPhase.red then TrafficLight.waitForGreen msgs
  else some 0

/-! ## Helper lemmas -/

/-- Central invariant of the admission queue: running any operation
sequence keeps the two vectors aligned and the grant log plus the
remaining aligned pairs equals the previous log and pairs plus the newly
enqueued pairs.  Proved by induction on the operation sequence. -/
lemma runQueueOps_spec (ops : List QueueOp) :
    ∀ (w : WaitingVehicles) (grants : List (Nat × Nat)) (w2 : WaitingVehicles)
      (grants2 : List (Nat × Nat)),
    w.vehicles.length = w.promises.length →
    runQueueOps w grants ops = some (w2, grants2) →
    w2.vehicles.length = w2.promises.length ∧
    grants2 ++ w2.pairs = grants ++ w.pairs ++ enqueuedOf ops := by
  induction ops with
  | nil =>
    intro w grants w2 grants2 hlen hrun
    simp only [runQueueOps, Option.some.injEq, Prod.mk.injEq] at hrun
    obtain ⟨rfl, rfl⟩ := hrun
    simp [hlen, enqueuedOf]
  | cons op rest ih =>
    intro w grants w2 grants2 hlen hrun
    cases op with
    | push v p =>
      simp only [runQueueOps] at hrun
      have hlen2 : (w.pushBack v p).vehicles.length =
          (w.pushBack v p).promises.length := by
        simp [WaitingVehicles.pushBack, hlen]
      obtain ⟨h1, h2⟩ := ih (w.pushBack v p) grants w2 grants2 hlen2 hrun
      refine ⟨h1, ?_⟩
      rw [h2]
      have hpairs : (w.pushBack v p).pairs = w.pairs ++ [(v, p)] := by
        simp [WaitingVehicles.pushBack, WaitingVehicles.pairs,
          List.zip_append hlen]
      rw [hpairs]
      simp [enqueuedOf]
    | permit =>
      obtain ⟨vlist, plist⟩ := w
      cases vlist with
      | nil =>
        cases plist with
        | nil =>
          simp [runQueueOps, WaitingVehicles.permitEntryToFirstInQueue] at hrun
        | cons p ps =>
          simp at hlen
      | cons v vs =>
        cases plist with
        | nil =>
          simp at hlen
        | cons p ps =>
          simp only [runQueueOps, WaitingVehicles.permitEntryToFirstInQueue] at hrun
          have hlen2 : (⟨vs, ps⟩ : WaitingVehicles).vehicles.length =
              (⟨vs, ps⟩ : WaitingVehicles).promises.length := by
            simpa using hlen
          obtain ⟨h1, h2⟩ :=
            ih ⟨vs, ps⟩ (grants ++ [(v, p)]) w2 grants2 hlen2 hrun
          refine ⟨h1, ?_⟩
          rw [h2]
          simp [WaitingVehicles.pairs, enqueuedOf]

/-! ## Claim theorems -/

/-- C1: Grants are strictly FIFO by arrival order.  `pushBack` appends the
new request at the tail, `permitEntryToFirstInQueue` removes exactly the
head request and fulfils its promise, and for every operation sequence the
grant log is an initial segment of the enqueue order (so the i-th grant
goes to the i-th enqueued request) with the remaining requests following
in their unchanged arrival order. -/
theorem fifoGrantOrder (ops : List QueueOp) (w2 : WaitingVehicles)
    (grants2 : List (Nat × Nat))
    (h : runQueueOps WaitingVehicles.empty [] ops = some (w2, grants2)) :
    (∀ (w : WaitingVehicles) (v p : Nat),
       (w.pushBack v p).vehicles = w.vehicles ++ [v] ∧
       (w.pushBack v p).promises = w.promises ++ [p]) ∧
    (∀ (w w3 : WaitingVehicles) (g : Nat × Nat),
       w.permitEntryToFirstInQueue = some (g, w3) →
       w.vehicles = g.1 :: w3.vehicles ∧ w.promises = g.2 :: w3.promises) ∧
    grants2 ++ w2.pairs = enqueuedOf ops ∧
    grants2 = (enqueuedOf ops).take grants2.length := by
  have hmain := runQueueOps_spec ops WaitingVehicles.empty [] w2 grants2 rfl h
  obtain ⟨-, h2⟩ := hmain
  have hflat : grants2 ++ w2.pairs = enqueuedOf ops := by
    simpa [WaitingVehicles.empty, WaitingVehicles.pairs] using h2
  refine ⟨?_, ?_, hflat, ?_⟩
  · intro w v p
    exact ⟨rfl, rfl⟩
  · intro w w3 g hperm
    obtain ⟨vlist, plist⟩ := w
    cases vlist with
    | nil => simp [WaitingVehicles.permitEntryToFirstInQueue] at hperm
    | cons v vs =>
      cases plist with
      | nil => simp [WaitingVehicles.permitEntryToFirstInQueue] at hperm
      | cons p ps =>
        simp only [WaitingVehicles.permitEntryToFirstInQueue,
          Option.some.injEq, Prod.mk.injEq] at hperm
        obtain ⟨rfl, rfl⟩ := hperm
        exact ⟨rfl, rfl⟩
  · rw [← hflat, List.take_left]

/-- Witness for C1 at a concrete operation sequence: two enqueues, one
grant, a third enqueue, a second grant; the two grants are the first two
enqueued pairs in order. -/
theorem fifoGrantOrder_witness :
    [((10 : Nat), (100 : Nat)), (11, 101)] ++
        (⟨[12], [102]⟩ : WaitingVehicles).pairs =
      enqueuedOf [QueueOp.push 10 100, QueueOp.push 11 101, QueueOp.permit,
        QueueOp.push 12 102, QueueOp.permit] :=
  (fifoGrantOrder _ _ _ (by decide)).2.2.1

/-- C10: The two internal sequences stay aligned.  After any operation
sequence the vehicle vector and the promise vector have equal length,
every granted pair was enqueued as a pair by one `pushBack` (the fulfilled
promise is the one pushed together with its vehicle), and a grant on a
state with head vehicle `v` and head promise `p` fulfils exactly `p`. -/
theorem parallelVectorsAligned (ops : List QueueOp) (w2 : WaitingVehicles)
    (grants2 : List (Nat × Nat))
    (h : runQueueOps WaitingVehicles.empty [] ops = some (w2, grants2)) :
    w2.vehicles.length = w2.promises.length ∧
    (∀ g ∈ grants2, g ∈ enqueuedOf ops) ∧
    (∀ (v p : Nat) (vs ps : List Nat),
       (⟨v :: vs, p :: ps⟩ : WaitingVehicles).permitEntryToFirstInQueue =
         some ((v, p), ⟨vs, ps⟩)) := by
  have hmain := runQueueOps_spec ops WaitingVehicles.empty [] w2 grants2 rfl h
  obtain ⟨h1, h2⟩ := hmain
  refine ⟨h1, ?_, ?_⟩
  · intro g hg
    have hflat : grants2 ++ w2.pairs = enqueuedOf ops := by
      simpa [WaitingVehicles.empty, WaitingVehicles.pairs] using h2
    rw [← hflat]
    exact List.mem_append_left _ hg
  · intro v p vs ps
    rfl

/-- Witness for C10 at a concrete operation sequence. -/
theorem parallelVectorsAligned_witness :
    (⟨[12], [102]⟩ : WaitingVehicles).vehicles.length =
      (⟨[12], [102]⟩ : WaitingVehicles).promises.length ∧
    ((10 : Nat), (100 : Nat)) ∈ enqueuedOf [QueueOp.push 10 100,
      QueueOp.push 11 101, QueueOp.permit, QueueOp.push 12 102,
      QueueOp.permit] :=
  ⟨(parallelVectorsAligned
      [QueueOp.push 10 100, QueueOp.push 11 101, QueueOp.permit,
        QueueOp.push 12 102, QueueOp.permit]
      ⟨[12], [102]⟩ [(10, 100), (11, 101)] (by decide)).1,
   (parallelVectorsAligned
      [QueueOp.push 10 100, QueueOp.push 11 101, QueueOp.permit,
        QueueOp.push 12 102, QueueOp.permit]
      ⟨[12], [102]⟩ [(10, 100), (11, 101)] (by decide)).2.1 _ (by decide)⟩

/-- C2: The occupied gate.  In any atomic event of the intersection, a new
grant appears only in a poll step whose pre-state is not blocked, and that
step sets the gate; the gate falls from true back to false only through a
departure (`vehicleHasLeft`) event.  So the gate follows exactly
Free → Occupied (on grant) → Free (on departure). -/
theorem occupiedGateTransitions (s : IntersectionState) (op : IntersectionOp)
    (s2 : IntersectionState) (h : intersectionStep s op = some s2) :
    (s2.grants ≠ s.grants →
       op = IntersectionOp.pollStep ∧ s.isBlocked = false ∧
       s2.isBlocked = true ∧
       ∃ g w3, s.waitingVehicles.permitEntryToFirstInQueue = some (g, w3) ∧
         s2.grants = s.grants ++ [g] ∧ s2.waitingVehicles = w3) ∧
    (s.isBlocked = true → s2.isBlocked = false →
       ∃ v, op = IntersectionOp.departure v) := by
  cases op with
  | addVehicle v p =>
    simp only [intersectionStep, Option.some.injEq] at h
    subst h
    constructor
    · intro hg
      exact absurd rfl hg
    · intro hb hb2
      rw [hb] at hb2
      exact absurd hb2 (by simp)
  | pollStep =>
    simp only [intersectionStep] at h
    by_cases hguard : s.waitingVehicles.getSize > 0 && !s.isBlocked
    · rw [if_pos hguard] at h
      obtain ⟨hsize, hnb⟩ := Bool.and_eq_true_iff.mp hguard
      have hnotb : s.isBlocked = false := by
        cases hb : s.isBlocked
        · rfl
        · rw [hb] at hnb; exact absurd hnb (by simp)
      rcases hperm : (Intersection.setIsBlocked s
          true).waitingVehicles.permitEntryToFirstInQueue with _ | ⟨g, w3⟩
      · rw [hperm] at h
        exact absurd h (by simp)
      · rw [hperm] at h
        simp only [Option.some.injEq] at h
        subst h
        constructor
        · intro _
          refine ⟨rfl, hnotb, rfl, g, w3, ?_, rfl, rfl⟩
          simpa [Intersection.setIsBlocked] using hperm
        · intro hb _
          rw [hnotb] at hb
          exact absurd hb (by simp)
    · rw [if_neg hguard] at h
      simp only [Option.some.injEq] at h
      subst h
      constructor
      · intro hg
        exact absurd rfl hg
      · intro hb hb2
        rw [hb] at hb2
        exact absurd hb2 (by simp)
  | departure v =>
    simp only [intersectionStep, Option.some.injEq] at h
    subst h
    constructor
    · intro hg
      exact absurd rfl hg
    · intro _ _
      exact ⟨v, rfl⟩

/-- A concrete pre-state for the C2 witness: one waiting vehicle, gate
free, no grants yet. -/
def demoPollPre : IntersectionState :=
  { waitingVehicles := ⟨[5], [50]⟩, streets := [], isBlocked := false,
    light := TrafficLight.init 0, grants := [] }

/-- The state after one poll step from `demoPollPre`: queue emptied, gate
raised, grant logged. -/
def demoPollPost : IntersectionState :=
  { waitingVehicles := ⟨[], []⟩, streets := [], isBlocked := true,
    light := TrafficLight.init 0, grants := [(5, 50)] }

/-- Witness for C2 at a concrete poll step: one waiting vehicle, gate
free; the step issues the grant and raises the gate. -/
theorem occupiedGateTransitions_witness :
    demoPollPre.isBlocked = false ∧ demoPollPost.isBlocked = true := by
  have happ := occupiedGateTransitions demoPollPre IntersectionOp.pollStep
    demoPollPost (by decide)
  obtain ⟨-, hpre, hpost, -⟩ := happ.1 (by decide)
  exact ⟨hpre, hpost⟩

/-- C4: `permitEntryToFirstInQueue` requires a non-empty queue.  With the
two vectors aligned, `getSize() > 0` makes the front accesses safe (the
undefined-behaviour branch is unreachable); on the empty container the
call hits that branch; the admission loop is safe because it guards every
call with `getSize() > 0`, and when the queue is empty or the gate is
raised the poll step does not call it at all. -/
theorem permitRequiresNonempty :
    (∀ w : WaitingVehicles, w.vehicles.length = w.promises.length →
       w.getSize > 0 → w.permitEntryToFirstInQueue.isSome) ∧
    WaitingVehicles.empty.permitEntryToFirstInQueue = none ∧
    (∀ s : IntersectionState,
       s.waitingVehicles.vehicles.length = s.waitingVehicles.promises.length →
       (intersectionStep s IntersectionOp.pollStep).isSome) ∧
    (∀ s : IntersectionState,
       s.waitingVehicles.getSize = 0 ∨ s.isBlocked = true →
       intersectionStep s IntersectionOp.pollStep = some s) := by
  have hsafe : ∀ w : WaitingVehicles,
      w.vehicles.length = w.promises.length →
      w.getSize > 0 → w.permitEntryToFirstInQueue.isSome := by
    intro w hlen hsize
    obtain ⟨vlist, plist⟩ := w
    cases vlist with
    | nil => simp [WaitingVehicles.getSize] at hsize
    | cons v vs =>
      cases plist with
      | nil => simp at hlen
      | cons p ps => rfl
  refine ⟨hsafe, rfl, ?_, ?_⟩
  · intro s hlen
    simp only [intersectionStep]
    by_cases hguard : (decide (s.waitingVehicles.getSize > 0) && !s.isBlocked) = true
    · rw [if_pos hguard]
      have hsize : s.waitingVehicles.getSize > 0 :=
        of_decide_eq_true (Bool.and_eq_true_iff.mp hguard).1
      have h1 := hsafe s.waitingVehicles hlen hsize
      obtain ⟨x, hx⟩ := Option.isSome_iff_exists.mp h1
      obtain ⟨g, w3⟩ := x
      have hx2 : (Intersection.setIsBlocked s
          true).waitingVehicles.permitEntryToFirstInQueue = some (g, w3) := hx
      rw [hx2]
      rfl
    · rw [if_neg hguard]
      rfl
  · intro s h
    rcases h with h | h
    · simp [intersectionStep, h]
    · simp [intersectionStep, h]

/-- Witness for C4: the grant is safe on a concrete one-element container,
and the poll step leaves a blocked intersection unchanged. -/
theorem permitRequiresNonempty_witness :
    (⟨[7], [70]⟩ : WaitingVehicles).permitEntryToFirstInQueue.isSome ∧
    intersectionStep demoPollPost IntersectionOp.pollStep = some demoPollPost :=
  ⟨permitRequiresNonempty.1 ⟨[7], [70]⟩ (by decide) (by decide),
   permitRequiresNonempty.2.2.2 demoPollPost (Or.inr (by decide))⟩

/-- C3: `addVehicleToQueue` enqueues the request with its fresh promise at
the tail, and after the grant it reads the current phase: if it is green
it returns with zero receives (fast path), if it is red it runs
`waitForGreen`, which returns after `n` receives exactly when the first
`n - 1` received values are red (discarded) and the `n`-th is green. -/
theorem requestEntryGates :
    (∀ (s : IntersectionState) (v p : Nat) (s2 : IntersectionState),
       intersectionStep s (IntersectionOp.addVehicle v p) = some s2 →
       s2.waitingVehicles.vehicles = s.waitingVehicles.vehicles ++ [v] ∧
       s2.waitingVehicles.promises = s.waitingVehicles.promises ++ [p]) ∧
    (∀ msgs, Intersection.entryGate TrafficLightPhase.green msgs = some 0) ∧
    (∀ msgs n, Intersection.entryGate TrafficLightPhase.red msgs = some n →
       TrafficLight.waitForGreen msgs = some n) ∧
    (∀ msgs n, TrafficLight.waitForGreen msgs = some n →
       1 ≤ n ∧ n ≤ msgs.length ∧
       msgs.take n = List.replicate (n - 1) TrafficLightPhase.red ++
         [TrafficLightPhase.green]) := by
  refine ⟨?_, ?_, ?_, ?_⟩
  · intro s v p s2 h
    simp only [intersectionStep, Option.some.injEq] at h
    subst h
    exact ⟨rfl, rfl⟩
  · intro msgs
    simp [Intersection.entryGate]
  · intro msgs n h
    simpa [Intersection.entryGate] using h
  · intro msgs
    induction msgs with
    | nil =>
      intro n h
      simp [TrafficLight.waitForGreen] at h
    | cons phase rest ih =>
      intro n h
      by_cases hp : phase = TrafficLightPhase.green
      · subst hp
        have h1 : 1 = n := by simpa [TrafficLight.waitForGreen] using h
        subst h1
        simp
      · have hred : phase = TrafficLightPhase.red := by
          cases phase
          · rfl
          · exact absurd rfl hp
        subst hred
        have hcond : ¬ (TrafficLightPhase.red = TrafficLightPhase.green) := by
          decide
        simp only [TrafficLight.waitForGreen, if_neg hcond] at h
        cases hw : TrafficLight.waitForGreen rest with
        | none =>
          rw [hw] at h
          simp at h
        | some m =>
          rw [hw] at h
          simp only [Option.map_some', Option.some.injEq] at h
          subst h
          obtain ⟨h1, h2, h3⟩ := ih m hw
          obtain ⟨k, rfl⟩ : ∃ k, m = k + 1 :=
            ⟨m - 1, (Nat.succ_pred_eq_of_pos h1).symm⟩
          refine ⟨by omega, by simpa using h2, ?_⟩
          simp [List.take_succ_cons, h3, List.replicate_succ]

/-- Witness for C3: the fast path on green with no receives, and a
concrete red-red-green receive stream for `waitForGreen`. -/
theorem requestEntryGates_witness :
    Intersection.entryGate TrafficLightPhase.green [] = some 0 ∧
    [TrafficLightPhase.red, TrafficLightPhase.red,
        TrafficLightPhase.green].take 3 =
      List.replicate 2 TrafficLightPhase.red ++ [TrafficLightPhase.green] :=
  ⟨requestEntryGates.2.1 [],
   (requestEntryGates.2.2.2 [TrafficLightPhase.red, TrafficLightPhase.red,
      TrafficLightPhase.green] 3 rfl).2.2⟩

/-- C5 counterexample: the claim that values are never observed out of
send order fails.  Messages are tagged with their send index: after
sending 0 then 1, the first receive returns the value sent second and the
second receive the value sent first, so the earlier receive's value was
sent strictly later. -/
theorem broadcastOrder_counterexample :
    MessageQueue.receive
        (MessageQueue.send (MessageQueue.send ([] : List Nat) 0) 1) =
      some (1, [0]) ∧
    MessageQueue.receive [(0 : Nat)] = some (0, []) ∧ ¬ (1 ≤ 0) := by
  decide

/-- C5 amended: `receive` removes and returns the most recently sent value
still in the buffer (`back()` plus `pop_back()`, LIFO), so with two or
more pending values a pair of receives observes them in reverse send
order. -/
theorem broadcastLifoReceive :
    (∀ (q : List TrafficLightPhase) (m : TrafficLightPhase),
       MessageQueue.receive (MessageQueue.send q m) = some (m, q)) ∧
    (∀ (q : List TrafficLightPhase) (a b : TrafficLightPhase),
       MessageQueue.receive (MessageQueue.send (MessageQueue.send q a) b) =
         some (b, MessageQueue.send q a) ∧
       MessageQueue.receive (MessageQueue.send q a) = some (a, q)) := by
  have h1 : ∀ (q : List TrafficLightPhase) (m : TrafficLightPhase),
      MessageQueue.receive (MessageQueue.send q m) = some (m, q) := by
    intro q m
    simp [MessageQueue.receive, MessageQueue.send]
  exact ⟨h1, fun q a b => ⟨h1 _ _, h1 _ _⟩⟩

/-- C6: The traffic light starts red; each cycle's duration is a value of
the inclusive range [4000, 6000] ms (and every value of the range can be
drawn); a loop iteration before the duration elapses only advances time;
the iteration at which the duration has elapsed flips the phase, sends
exactly the new snapshot phase to the channel, resets the elapsed time and
draws a fresh in-range duration; and iterating the flip from red
alternates strictly between red and green forever. -/
theorem lightCycleSpec :
    (∀ r, (TrafficLight.init r).currentPhase = TrafficLightPhase.red) ∧
    (∀ r, 4000 ≤ uniformDraw 4000 6000 r ∧ uniformDraw 4000 6000 r ≤ 6000) ∧
    (∀ d, 4000 ≤ d → d ≤ 6000 → uniformDraw 4000 6000 (d - 4000) = d) ∧
    (∀ (s : LightState) (r : Nat), s.timeElapsed + 1 < s.phaseDuration →
       TrafficLight.cycleTick s r =
         ({ s with timeElapsed := s.timeElapsed + 1 }, none)) ∧
    (∀ (s : LightState) (r : Nat), s.phaseDuration ≤ s.timeElapsed + 1 →
       (TrafficLight.cycleTick s r).1.currentPhase =
         togglePhase s.currentPhase ∧
       (TrafficLight.cycleTick s r).2 =
         some (TrafficLight.getCurrentPhase (TrafficLight.cycleTick s r).1) ∧
       (TrafficLight.cycleTick s r).1.timeElapsed = 0 ∧
       4000 ≤ (TrafficLight.cycleTick s r).1.phaseDuration ∧
       (TrafficLight.cycleTick s r).1.phaseDuration ≤ 6000) ∧
    (∀ p, togglePhase p ≠ p) ∧
    (∀ n, togglePhase^[n] TrafficLightPhase.red =
       if n % 2 = 0 then TrafficLightPhase.red else TrafficLightPhase.green) := by
  have hrange : ∀ r, 4000 ≤ uniformDraw 4000 6000 r ∧
      uniformDraw 4000 6000 r ≤ 6000 := by
    intro r
    have hmod : r % 2001 < 2001 := Nat.mod_lt r (by omega)
    simp only [uniformDraw]
    omega
  refine ⟨fun r => rfl, hrange, ?_, ?_, ?_, ?_, ?_⟩
  · intro d hlo hhi
    have hlt : d - 4000 < 2001 := by omega
    simp only [uniformDraw, Nat.mod_eq_of_lt hlt]
    omega
  · intro s r h
    simp only [TrafficLight.cycleTick]
    rw [if_neg (by omega)]
  · intro s r h
    simp only [TrafficLight.cycleTick]
    rw [if_pos h]
    exact ⟨rfl, rfl, rfl, (hrange r).1, (hrange r).2⟩
  · intro p
    cases p <;> simp [togglePhase]
  · intro n
    induction n with
    | zero => simp
    | succ k ih =>
      rw [Function.iterate_succ_apply', ih]
      by_cases hk : k % 2 = 0
      · have hk1 : (k + 1) % 2 = 1 := by omega
        simp [hk, hk1, togglePhase]
      · have hk1 : (k + 1) % 2 = 0 := by omega
        simp [hk, hk1, togglePhase]

/-- Witness for C6: the initial phase, a concrete duration draw, one
non-flipping tick and one flipping tick that emits the new green phase. -/
theorem lightCycleSpec_witness :
    (TrafficLight.init 0).currentPhase = TrafficLightPhase.red ∧
    uniformDraw 4000 6000 (5000 - 4000) = 5000 ∧
    TrafficLight.cycleTick ⟨TrafficLightPhase.red, 0, 4000⟩ 0 =
      (⟨TrafficLightPhase.red, 1, 4000⟩, none) ∧
    (TrafficLight.cycleTick ⟨TrafficLightPhase.red, 3999, 4000⟩ 0).2 =
      some TrafficLightPhase.green := by
  refine ⟨lightCycleSpec.1 0, lightCycleSpec.2.2.1 5000 (by omega) (by omega),
    lightCycleSpec.2.2.2.1 ⟨TrafficLightPhase.red, 0, 4000⟩ 0 (by decide), ?_⟩
  obtain ⟨h1, h2, -⟩ :=
    lightCycleSpec.2.2.2.2.1 ⟨TrafficLightPhase.red, 3999, 4000⟩ 0 (by decide)
  rw [h2]
  simp [TrafficLight.getCurrentPhase] at h1 ⊢
  rw [h1]
  rfl

/-- C7: `vehicleHasLeft` clears the occupied gate and changes nothing
else: the admission queue, street list, traffic light and grant log are
untouched, and the result does not depend on which vehicle is passed. -/
theorem departureClearsGateOnly (s : IntersectionState) (v : Nat) :
    (Intersection.vehicleHasLeft s v).isBlocked = false ∧
    (Intersection.vehicleHasLeft s v).waitingVehicles = s.waitingVehicles ∧
    (Intersection.vehicleHasLeft s v).streets = s.streets ∧
    (Intersection.vehicleHasLeft s v).light = s.light ∧
    (Intersection.vehicleHasLeft s v).grants = s.grants ∧
    (∀ v2, Intersection.vehicleHasLeft s v = Intersection.vehicleHasLeft s v2) :=
  ⟨rfl, rfl, rfl, rfl, rfl, fun _ => rfl⟩

/-- The loop of `queryStreets` with an arbitrary accumulator collects, in
order, the streets whose id differs from the incoming one. -/
lemma queryStreetsList_go (incoming : Street) (streets : List Street) :
    ∀ acc : List Street,
      streets.foldl (fun outgoings it =>
          if incoming.id ≠ it.id then outgoings ++ [it] else outgoings) acc =
        acc ++ streets.filter (fun it => it ≠ incoming) := by
  induction streets with
  | nil =>
    intro acc
    simp
  | cons st rest ih =>
    intro acc
    simp only [List.foldl_cons]
    by_cases hid : incoming.id = st.id
    · have hst : st = incoming := by
        cases st
        cases incoming
        simpa using hid.symm
      rw [if_neg (by simpa using hid), ih acc]
      simp [hst]
    · have hne : st ≠ incoming := by
        intro he
        exact hid (by rw [he])
      rw [if_pos (by simpa using hid), ih (acc ++ [st])]
      simp [hne]

/-- C8: `queryStreets` is pure and complete: it returns exactly the
incident streets different from the given one, in their original order,
and leaves the intersection state unchanged. -/
theorem queryStreetsPure (s : IntersectionState) (incoming : Street) :
    (Intersection.queryStreets s incoming).1 =
      s.streets.filter (fun t => t ≠ incoming) ∧
    (Intersection.queryStreets s incoming).2 = s := by
  refine ⟨?_, rfl⟩
  simpa [Intersection.queryStreets, Intersection.queryStreetsList] using
    queryStreetsList_go incoming s.streets []

end TrafficSim
